import Mathlib

set_option maxHeartbeats 1000000

namespace Copilot

/-- JavaScript runtime values as manipulated by the two workflow orchestrators
(src/services/claude.ts, both the Claude and the Gemini halves): everything
`JSON.parse` can return, plus the `undefined` value produced by accessing an
absent member. Numbers are modelled as integers; the claims under study only
distinguish zero (falsy) from non-zero (truthy), and no fractional constant
flows through any merge. -/
inductive JsonV where
  | undefined : JsonV
  | null : JsonV
  | bool (b : Bool) : JsonV
  | num (n : Int) : JsonV
  | str (s : String) : JsonV
  | arr (xs : List JsonV) : JsonV
  | obj (kvs : List (String × JsonV)) : JsonV

/-- JavaScript truthiness, as used by the `patch.field || document.field`
merges. `undefined`, `null`, `false`, `0` and the empty string are falsy;
every array and every object (empty ones included) is truthy. -/
def truthy : JsonV → Bool
  | .undefined => false
  | .null => false
  | .bool b => b
  | .num n => n != 0
  | .str s => s != ""
  | .arr _ => true
  | .obj _ => true

/-- The JavaScript `a || b` operator on runtime values: `a` when truthy,
otherwise `b`. -/
def jsOr (a b : JsonV) : JsonV :=
  if truthy a then a else b

/-- First binding of a key in an association-list object, mirroring lookup in a
JavaScript object (which cannot actually hold duplicate keys). -/
def lookupKey (kvs : List (String × JsonV)) (k : String) : Option JsonV :=
  match kvs.find? (fun kv => kv.1 == k) with
  | some kv => some kv.2
  | none => none

/-- JavaScript member access `v[k]`: a present key's value on an object,
`undefined` otherwise. Member access on `null`/`undefined` throws a TypeError
in JavaScript; the run functions below guard the one place this can happen
(a phase whose parsed output is `null`). On the remaining primitives
JavaScript yields `undefined`, as here. -/
def getField (v : JsonV) (k : String) : JsonV :=
  match v with
  | .obj kvs => (lookupKey kvs k).getD .undefined
  | _ => .undefined

/-- Own enumerable string-keyed entries of a value, as contributed by an object
spread `\x7b...v\x7d`: an object's entries; nothing for `null`, `undefined`,
numbers and booleans. (Spreading a string would contribute index keys; no
orchestrator value can be a string at a spread site that matters to the
claims, and that exotic case is modelled as contributing nothing.) -/
def asObj : JsonV → List (String × JsonV)
  | .obj kvs => kvs
  | _ => []

/-- Object-literal update `\x7b...kvs, k: v\x7d`: an existing key keeps its
position and gets the new value; a new key is appended. -/
def setKey (kvs : List (String × JsonV)) (k : String) (v : JsonV) : List (String × JsonV) :=
  if (lookupKey kvs k).isSome then
    kvs.map (fun kv => if kv.1 = k then (k, v) else kv)
  else kvs ++ [(k, v)]

/-- Object spread `\x7b...a, ...b\x7d`: keys of `a` in order, each taking `b`'s
value when `b` also has the key, followed by the keys of `b` absent from `a`,
in `b`'s order. -/
def spreadObj (a b : List (String × JsonV)) : List (String × JsonV) :=
  a.map (fun kv =>
    match lookupKey b kv.1 with
    | some v => (kv.1, v)
    | none => kv)
  ++ b.filter (fun kv => (lookupKey a kv.1).isNone)

/-- The term-sheet merge expression `\x7b ...document.termSheet,
...patch.termSheet \x7d` used by phases 4 and 6 of both orchestrators. -/
def spreadJs (ts p : JsonV) : JsonV :=
  .obj (spreadObj (asObj ts) (asObj p))

mutual
/-- JavaScript string coercion as performed by a template literal, used by the
Writer phase's fabricated fallback title. -/
def jsToString : JsonV → String
  | .undefined => "undefined"
  | .null => "null"
  | .bool true => "true"
  | .bool false => "false"
  | .num n => toString n
  | .str s => s
  | .arr xs => jsArrToString xs
  | .obj _ => "[object Object]"

/-- Array-to-string coercion: elements joined by commas, where a `null` or
`undefined` element coerces to the empty string. -/
def jsArrToString : List JsonV → String
  | [] => ""
  | [x] =>
    match x with
    | .undefined => ""
    | .null => ""
    | v => jsToString v
  | x :: y :: rest =>
    (match x with
     | .undefined => ""
     | .null => ""
     | v => jsToString v) ++ "," ++ jsArrToString (y :: rest)
end

/-- The evolving memorandum document (`MemoData` in src/types.ts). TypeScript
types are erased at runtime and each phase stores raw parsed-JSON values into
these slots, so every field is modelled as a runtime value. The fields are the
declared fields of `MemoData` (the optional compliance fields are never
touched by either orchestrator and `competitivePosition` is likewise never
written; they are carried by `lastUpdated`-style inertness and elided). -/
@[ext]
structure Memo where
  title : JsonV
  status : JsonV
  lastUpdated : JsonV
  recommendation : JsonV
  executiveSummary : JsonV
  investmentThesis : JsonV
  keyTerms : JsonV
  termSheet : JsonV
  capitalStructure : JsonV
  companyOverview : JsonV
  marketAnalysis : JsonV
  investmentHighlights : JsonV
  risks : JsonV
  scenarios : JsonV
  liquidationWaterfall : JsonV
  downsideAnalysis : JsonV
  businessAnalysis : JsonV
  financialModel : JsonV
  financialAnalysis : JsonV

/-- Names of the top-level document fields, used to state field-ownership and
field-wise merge properties. -/
inductive Field where
  | title | status | lastUpdated | recommendation | executiveSummary
  | investmentThesis | keyTerms | termSheet | capitalStructure
  | companyOverview | marketAnalysis | investmentHighlights | risks
  | scenarios | liquidationWaterfall | downsideAnalysis | businessAnalysis
  | financialModel | financialAnalysis
deriving DecidableEq, Fintype

/-- Projection of a named top-level field out of a document. -/
def proj : Field → Memo → JsonV
  | .title, m => m.title
  | .status, m => m.status
  | .lastUpdated, m => m.lastUpdated
  | .recommendation, m => m.recommendation
  | .executiveSummary, m => m.executiveSummary
  | .investmentThesis, m => m.investmentThesis
  | .keyTerms, m => m.keyTerms
  | .termSheet, m => m.termSheet
  | .capitalStructure, m => m.capitalStructure
  | .companyOverview, m => m.companyOverview
  | .marketAnalysis, m => m.marketAnalysis
  | .investmentHighlights, m => m.investmentHighlights
  | .risks, m => m.risks
  | .scenarios, m => m.scenarios
  | .liquidationWaterfall, m => m.liquidationWaterfall
  | .downsideAnalysis, m => m.downsideAnalysis
  | .businessAnalysis, m => m.businessAnalysis
  | .financialModel, m => m.financialModel
  | .financialAnalysis, m => m.financialAnalysis

/-- Phase 1 (Data Collection) merge, identical in `runClaudeWorkflow` and
`runGeminiWorkflow`: `companyOverview` and `marketAnalysis` each merged by
`patch.field || document.field`. -/
def mergePhase1 (m : Memo) (p : JsonV) : Memo :=
  { m with
    companyOverview := jsOr (getField p "companyOverview") m.companyOverview,
    marketAnalysis := jsOr (getField p "marketAnalysis") m.marketAnalysis }

/-- Phase 2 (Financial Modeling) merge, identical in both orchestrators:
`financialModel`, `financialAnalysis`, `scenarios` and `capitalStructure`
each merged by `patch.field || document.field`. -/
def mergePhase2 (m : Memo) (p : JsonV) : Memo :=
  { m with
    financialModel := jsOr (getField p "financialModel") m.financialModel,
    financialAnalysis := jsOr (getField p "financialAnalysis") m.financialAnalysis,
    scenarios := jsOr (getField p "scenarios") m.scenarios,
    capitalStructure := jsOr (getField p "capitalStructure") m.capitalStructure }

/-- Phase 3 (Risk Assessment) merge, identical in both orchestrators:
`risks` merged by `patch.risks || document.risks`. -/
def mergePhase3 (m : Memo) (p : JsonV) : Memo :=
  { m with risks := jsOr (getField p "risks") m.risks }

/-- Phase 4 (Deal Structuring) merge, identical in both orchestrators:
`termSheet` replaced by the spread `\x7b ...document.termSheet,
...patch.termSheet \x7d` and `capitalStructure` merged by
`patch.capitalStructure || document.capitalStructure`. -/
def mergePhase4 (m : Memo) (p : JsonV) : Memo :=
  { m with
    termSheet := spreadJs m.termSheet (getField p "termSheet"),
    capitalStructure := jsOr (getField p "capitalStructure") m.capitalStructure }

/-- The phase-5 object literal `\x7b ...ts, maintenanceCovenants: v1,
negativeCovenants: v2, conditionsPrecedent: v3 \x7d`: a copy of the term
sheet with the three covenant keys set, in evaluation order. -/
def covChain (T : List (String × JsonV)) (v1 v2 v3 : JsonV) : List (String × JsonV) :=
  setKey (setKey (setKey T "maintenanceCovenants" v1) "negativeCovenants" v2)
    "conditionsPrecedent" v3

/-- Phase 5 (Covenant Design) merge, identical in both orchestrators: the
term sheet is copied and its three covenant keys are set to
`patch.termSheet?.key || document.termSheet.key` (the optional chaining
`?.` yields `undefined` on a missing or `null` patch term sheet, which
`getField` reproduces). -/
def mergePhase5 (m : Memo) (p : JsonV) : Memo :=
  { m with
    termSheet := .obj (covChain (asObj m.termSheet)
      (jsOr (getField (getField p "termSheet") "maintenanceCovenants")
        (getField m.termSheet "maintenanceCovenants"))
      (jsOr (getField (getField p "termSheet") "negativeCovenants")
        (getField m.termSheet "negativeCovenants"))
      (jsOr (getField (getField p "termSheet") "conditionsPrecedent")
        (getField m.termSheet "conditionsPrecedent"))) }

/-- Phase 6 (Writing) merge, identical in both orchestrators: seven narrative
fields merged by `patch.field || fallback`, where the fallback for `title` is
not the previous title but the fabricated string
`Investment Memo: $\x7bdocument.termSheet.borrower\x7d`; the term sheet is
spread-merged; and `status` is unconditionally set to `"Draft"`. -/
def mergePhase6 (m : Memo) (p : JsonV) : Memo :=
  { m with
    title := jsOr (getField p "title")
      (.str ("Investment Memo: " ++ jsToString (getField m.termSheet "borrower"))),
    recommendation := jsOr (getField p "recommendation") m.recommendation,
    executiveSummary := jsOr (getField p "executiveSummary") m.executiveSummary,
    investmentThesis := jsOr (getField p "investmentThesis") m.investmentThesis,
    investmentHighlights := jsOr (getField p "investmentHighlights") m.investmentHighlights,
    businessAnalysis := jsOr (getField p "businessAnalysis") m.businessAnalysis,
    downsideAnalysis := jsOr (getField p "downsideAnalysis") m.downsideAnalysis,
    termSheet := spreadJs m.termSheet (getField p "termSheet"),
    status := .str "Draft" }

/-- The six ordered phases of both orchestrators. -/
inductive Phase where
  | p1 | p2 | p3 | p4 | p5 | p6
deriving DecidableEq, Fintype

/-- The phase order of both orchestrators. -/
def phaseList : List Phase := [.p1, .p2, .p3, .p4, .p5, .p6]

/-- Dispatch to each phase's merge (the merge code is identical in the Claude
and the Gemini orchestrator, phase by phase). -/
def phaseMerge : Phase → Memo → JsonV → Memo
  | .p1 => mergePhase1
  | .p2 => mergePhase2
  | .p3 => mergePhase3
  | .p4 => mergePhase4
  | .p5 => mergePhase5
  | .p6 => mergePhase6

/-- The `AgentType` of src/types.ts. -/
inductive Agent where
  | Orchestrator | DataCollector | FinancialModeler | RiskAnalyst
  | StructuringExpert | CovenantDesigner | Writer
deriving DecidableEq, Fintype

/-- Event statuses of `WorkflowEvent` in src/types.ts. -/
inductive EvStatus where
  | pending | active | completed | failed
deriving DecidableEq, Fintype

/-- A `WorkflowEvent` as yielded by the orchestrators. The `id` and
`timestamp` fields are wall-clock products of `Date.now()` and are elided;
the optional `partialData` snapshot duplicates fields of the merged document
the run result already exposes. -/
structure Event where
  agent : Agent
  status : EvStatus
  message : String
deriving DecidableEq

/-- Agent attributed to each phase's events. -/
def phaseAgent : Phase → Agent
  | .p1 => .DataCollector
  | .p2 => .FinancialModeler
  | .p3 => .RiskAnalyst
  | .p4 => .StructuringExpert
  | .p5 => .CovenantDesigner
  | .p6 => .Writer

/-- The `active` event messages of `runClaudeWorkflow`. -/
def claudeActiveMsg : Phase → String
  | .p1 => "Analyzing request and gathering intelligence (PDF Skill Active)..."
  | .p2 => "Engaging Extended Thinking & Excel Skill for model construction..."
  | .p3 => "Deep-dive risk assessment and mitigation strategy..."
  | .p4 => "Structuring optimal credit facility..."
  | .p5 => "Calibrating covenants against model headroom..."
  | .p6 => "Synthesizing final Investment Memorandum (PPTX/DOCX Skills Active)..."

/-- The `completed` event messages of `runClaudeWorkflow`. -/
def claudeCompletedMsg : Phase → String
  | .p1 => "Entity data and market intelligence analyzed."
  | .p2 => "Financial model built with probability-weighted scenarios."
  | .p3 => "Risk matrix calibrated."
  | .p4 => "Term sheet structured."
  | .p5 => "Covenants designed."
  | .p6 => "Final Investment Memo assembled successfully."

/-- The `active` event messages of `runGeminiWorkflow`. -/
def geminiActiveMsg : Phase → String
  | .p1 => "Searching for filings (10-K/Q) and market data..."
  | .p2 => "Constructing 3-statement model and return scenarios..."
  | .p3 => "Identifying risks and calculating probability/impact..."
  | .p4 => "Structuring facility, pricing, and security package..."
  | .p5 => "Calibrating maintenance and negative covenants..."
  | .p6 => "Synthesizing final Investment Memorandum..."

/-- The `completed` event messages of `runGeminiWorkflow`. -/
def geminiCompletedMsg : Phase → String
  | .p1 => "Entity data and market intelligence gathered."
  | .p2 => "Financial model built with Base/Upside/Downside cases."
  | .p3 => "Risk matrix and mitigants defined."
  | .p4 => "Term sheet core terms and pricing set."
  | .p5 => "Covenants calibrated with appropriate headroom."
  | .p6 => "Final Investment Memo assembled successfully."

/-- Message of the TypeError raised when a phase's parsed output is the JSON
value `null` and the merge code dereferences a member on it (the property
name varies by phase and is abstracted). -/
def nullAccessMsg : String := "Cannot read properties of null"

/-- Test for the JSON value `null`, the one parse result whose member access
throws inside a phase's merge expression. -/
def isNullJ : JsonV → Bool
  | .null => true
  | _ => false

/-- Outcome of one run of an orchestrator: the ordered emitted events, the
final `workingMemo`, and the re-raised error, if any. -/
structure RunResult where
  events : List Event
  memo : Memo
  err : Option String

/-- Sequential phase execution shared by both orchestrators. The environment
`oc` gives, per phase, what `JSON.parse(cleanJson(...))` over that phase's
backend response evaluates to, or the message of the error the backend call /
extraction / parse raised. Per phase: yield the `active` event; on an error,
yield one `failed` event tagged `Orchestrator` and re-raise (modelled by the
`err` component); otherwise merge the patch, yield the `completed` event and
continue. A patch equal to JSON `null` makes the merge's member access throw,
which the enclosing catch turns into the same `failed`-and-re-raise path. -/
def runPhases (failMsg : String → String) (activeMsg completedMsg : Phase → String)
    (oc : Phase → Except String JsonV) : List Phase → Memo → RunResult
  | [], m => ⟨[], m, none⟩
  | k :: rest, m =>
    let av : Event := ⟨phaseAgent k, .active, activeMsg k⟩
    match oc k with
    | .error e => ⟨[av, ⟨.Orchestrator, .failed, failMsg e⟩], m, some e⟩
    | .ok v =>
      if isNullJ v then
        ⟨[av, ⟨.Orchestrator, .failed, failMsg nullAccessMsg⟩], m, some nullAccessMsg⟩
      else
        let r := runPhases failMsg activeMsg completedMsg oc rest (phaseMerge k m v)
        ⟨av :: ⟨phaseAgent k, .completed, completedMsg k⟩ :: r.events, r.memo, r.err⟩

/-- The Claude orchestrator `runClaudeWorkflow` (src/services/claude.ts): its
`failed` message interpolates the caught error's message. The `model` and
`attachments` arguments only shape backend requests (see the request-building
definitions below) and do not affect sequencing or merging, so they live in
the oracle `oc`. -/
def runClaudeWorkflow (oc : Phase → Except String JsonV) (m : Memo) : RunResult :=
  runPhases (fun e => "Workflow interrupted: " ++ e) claudeActiveMsg claudeCompletedMsg oc phaseList m

/-- The Gemini orchestrator `runGeminiWorkflow`: same sequencing and merges,
but its `failed` message is the fixed string below, independent of the error. -/
def runGeminiWorkflow (oc : Phase → Except String JsonV) (m : Memo) : RunResult :=
  runPhases (fun _ => "Workflow interrupted due to error.") geminiActiveMsg geminiCompletedMsg oc phaseList m

/-- ASCII whitespace, the cases of the regex class and of `trim` that can
occur in model output. -/
def isWs (c : Char) : Bool :=
  c = ' ' || c = '\t' || c = '\n' || c = '\r'

/-- Boolean prefix test on character lists. -/
def startsWithL : List Char → List Char → Bool
  | _, [] => true
  | [], _ :: _ => false
  | a :: as, b :: bs => a = b && startsWithL as bs

/-- Boolean suffix test on character lists. -/
def endsWithL (l suf : List Char) : Bool :=
  startsWithL l.reverse suf.reverse

/-- Drop trailing characters satisfying a predicate. -/
def dropRightWhileL (l : List Char) (p : Char → Bool) : List Char :=
  (l.reverse.dropWhile p).reverse

/-- Drop the last `n` characters. -/
def dropRightN (l : List Char) (n : Nat) : List Char :=
  l.take (l.length - n)

/-- Trim whitespace from both ends, as `String.prototype.trim` does. -/
def trimL (l : List Char) : List Char :=
  dropRightWhileL (l.dropWhile isWs) isWs

/-- Replacement of the trailing-fence regex: when the text ends with a triple
backtick, remove it together with the whitespace run before it; otherwise the
regex does not match and the text is unchanged. -/
def stripTrailingFence (l : List Char) : List Char :=
  if endsWithL l ("```".data) then dropRightWhileL (dropRightN l 3) isWs else l

/-- The `cleanJson` helper of src/services/prompts.ts: trim, then strip a
leading json-tagged fence (` ```json ` plus following whitespace) or a bare
leading fence (` ``` ` plus following whitespace), and in either fenced case
also strip a trailing ` ``` ` with the whitespace before it. -/
def cleanJson (text : String) : String :=
  let cleaned := trimL text.data
  if startsWithL cleaned ("```json".data) then
    String.mk (stripTrailingFence ((cleaned.drop 7).dropWhile isWs))
  else if startsWithL cleaned ("```".data) then
    String.mk (stripTrailingFence ((cleaned.drop 3).dropWhile isWs))
  else
    String.mk cleaned

/-- Strict-equality test `b.type === "text"` used by `extractText`. -/
def isTextBlock (b : JsonV) : Bool :=
  match getField b "type" with
  | .str s => s = "text"
  | _ => false

/-- The `extractText` helper of src/services/claude.ts: on a non-array (or
missing) content value return the placeholder `"\x7b\x7d"`; otherwise return
the `text` member of the first block whose `type` is `"text"`, or the
placeholder when no such block exists. It is total — the source never raises
here. -/
def extractText (content : JsonV) : JsonV :=
  match content with
  | .arr xs =>
    match xs.find? isTextBlock with
    | some b => getField b "text"
    | none => .str "\x7b\x7d"
  | _ => .str "\x7b\x7d"

/-- An uploaded file as handed to a workflow run (the `Attachment` of
src/types.ts): name, MIME type, and base64 payload. -/
structure Attachment where
  name : String
  mimeType : String
  data : String
deriving DecidableEq

/-- A block of the single user message sent by `generateWithClaude`: a binary
document block, a binary image block, or plain text. -/
inductive ContentBlock where
  | document (mediaType : String) (data : String)
  | image (mediaType : String) (data : String)
  | text (t : String)
deriving DecidableEq

/-- JavaScript `data.substring(0, 50)`. -/
def take50 (s : String) : String :=
  String.mk (s.data.take 50)

/-- One iteration of the attachment loop of `generateWithClaude`, carrying
the binary blocks pushed so far and the running text context: a binary
`document` block is pushed for `application/pdf`, a binary `image` block for
`image/*`, and for anything else only an inline text reference (name, MIME
type, and the first 50 characters of the base64 payload) is appended to the
text context. -/
def claudeStep (acc : List ContentBlock × String) (att : Attachment) :
    List ContentBlock × String :=
  if att.mimeType = "application/pdf" then
    (acc.1 ++ [.document "application/pdf" att.data],
     acc.2 ++ ("\n\n[Attached PDF: " ++ att.name ++ "]"))
  else if startsWithL att.mimeType.data ("image/".data) then
    (acc.1 ++ [.image att.mimeType att.data],
     acc.2 ++ ("\n\n[Attached Image: " ++ att.name ++ "]"))
  else
    (acc.1,
     acc.2 ++ ("\n\n[Attachment: " ++ att.name ++ " (" ++ att.mimeType ++ ")]\n(Base64 Data: "
       ++ take50 att.data ++ "...)"))

/-- Attachment handling of `generateWithClaude`: walk the attachments in
order with `claudeStep`, then push the accumulated text context as the final
`text` block. -/
def buildClaudeContent (userPrompt : String) (attachments : List Attachment) : List ContentBlock :=
  let built := attachments.foldl claudeStep ([], userPrompt)
  built.1 ++ [.text built.2]

/-- A part of the Gemini phase-1 request: an inline binary blob or text. -/
inductive GeminiPart where
  | inlineData (mimeType : String) (data : String)
  | text (t : String)
deriving DecidableEq

/-- Phase-1 request construction of `runGeminiWorkflow`: every attachment,
whatever its MIME type, becomes an `inlineData` (binary) part, followed by
the prompt text. -/
def buildGeminiParts (attachments : List Attachment) (promptText : String) : List GeminiPart :=
  attachments.map (fun a => .inlineData a.mimeType a.data) ++ [.text promptText]

/-- Model identifier `CLAUDE_SONNET` of src/services/claude.ts. -/
def CLAUDE_SONNET : String := "claude-sonnet-4-5-20250929"

/-- Model identifier `CLAUDE_OPUS` of src/services/claude.ts. -/
def CLAUDE_OPUS : String := "claude-opus-4-1-20250805"

/-- The request configuration built by `generateWithClaude`: `thinking` and
`temperature` are each either absent or present. -/
structure ClaudeConfig where
  model : String
  maxTokens : Nat
  thinkingBudget : Option Nat
  temperature : Option Rat
  hasSkillsContainer : Bool
deriving DecidableEq

/-- Configuration construction of `generateWithClaude`: 16000 output tokens
with thinking and 8000 without; when `useThinking` is requested and the model
is the Sonnet model, a thinking budget of 8000 is set and no `temperature`
key is written (the two are mutually exclusive for that model family);
otherwise the passed sampling temperature is set and no `thinking` key is
written. -/
def buildClaudeConfig (model : String) (useThinking : Bool) (temperature : Rat)
    (hasSkills : Bool) : ClaudeConfig :=
  { model := model,
    maxTokens := if useThinking then 16000 else 8000,
    thinkingBudget := if useThinking && model = CLAUDE_SONNET then some 8000 else none,
    temperature := if useThinking && model = CLAUDE_SONNET then none else some temperature,
    hasSkillsContainer := hasSkills }

/-- Bot message posted by `handleSendMessage` (App.tsx) when any step inside
its try block — a phase or the final confirmation call — raised. The actual
string interpolates the provider name; it never carries the error. -/
def criticalErrorMsg (provider : String) : String :=
  "I encountered a critical error in the " ++ provider
    ++ " agent workflow. Please check the console for details."

/-- Fallback confirmation text used when the confirmation call returns an
empty (falsy) response. -/
def analysisCompleteMsg : String :=
  "Analysis complete. The memorandum has been updated with the latest data from all agents."

/-- The caller `handleSendMessage` of App.tsx, over one workflow run outcome
and the outcome of the final confirmation call. The App consumes the
generator, folding each step's `partialData` into its document state — which
leaves it equal to the run's final `workingMemo` — and then, only when the
run did not raise, makes one confirmation call whose text (or, when it is
falsy, a fallback) becomes the bot message. Any raise from the run or from
the confirmation call lands in the same catch, which posts a generic message
and swallows the error (the function itself never re-raises), leaving the
document state untouched. When the run raised, the confirmation call is
never reached. -/
def handleSendMessage (provider : String) (run : RunResult)
    (confirmation : Except String String) : Memo × String :=
  match run.err with
  | some _ => (run.memo, criticalErrorMsg provider)
  | none =>
    match confirmation with
    | .error _ => (run.memo, criticalErrorMsg provider)
    | .ok t => (run.memo, if t = "" then analysisCompleteMsg else t)

/-- Spec-modelled field rule of §4.4, written from the spec side for
comparison with the code: the patch's value wins when present and truthy,
otherwise the previous value is kept. Kept separate from `jsOr`/`getField` so
the refinement theorems compare a source-derived function against a
spec-derived one. -/
def specFallback (pv old : JsonV) : JsonV :=
  match pv with
  | .undefined => old
  | .null => old
  | .bool false => old
  | .num n => if n = 0 then old else .num n
  | .str s => if s = "" then old else .str s
  | v => v

/-- Spec-modelled key rule for sub-record (term-sheet) merging: a key present
in the patch wins whatever its value; an absent key keeps the previous
binding. -/
def specKeyMerge (pv old : Option JsonV) : Option JsonV :=
  match pv with
  | some v => some v
  | none => old

/-- Boolean substring test, used to state that a message carries an error
message. -/
def strContains (hay needle : String) : Bool :=
  (List.range (hay.data.length + 1)).any
    (fun i => startsWithL (hay.data.drop i) needle.data)

/-- The patch value a phase outcome carries (irrelevant default on errors). -/
def okV : Except String JsonV → JsonV
  | .ok v => v
  | .error _ => .null

/-- Document obtained by merging, in order, the given phases' patches. -/
def mergedAlong (oc : Phase → Except String JsonV) (l : List Phase) (m : Memo) : Memo :=
  l.foldl (fun acc k => phaseMerge k acc (okV (oc k))) m

/-- The phases strictly before a given phase, in run order. -/
def phasesBefore : Phase → List Phase
  | .p1 => []
  | .p2 => [.p1]
  | .p3 => [.p1, .p2]
  | .p4 => [.p1, .p2, .p3]
  | .p5 => [.p1, .p2, .p3, .p4]
  | .p6 => [.p1, .p2, .p3, .p4, .p5]

/-- The `active`/`completed` event pair a successfully completed phase emits,
given the per-phase message tables. -/
def phasePairEvents (activeMsg completedMsg : Phase → String) (k : Phase) : List Event :=
  [⟨phaseAgent k, .active, activeMsg k⟩, ⟨phaseAgent k, .completed, completedMsg k⟩]

/-- Fields a phase's merge can touch at all (used for ownership claims). -/
def phaseWritten : Phase → List Field
  | .p1 => [.companyOverview, .marketAnalysis]
  | .p2 => [.financialModel, .financialAnalysis, .scenarios, .capitalStructure]
  | .p3 => [.risks]
  | .p4 => [.termSheet, .capitalStructure]
  | .p5 => [.termSheet]
  | .p6 => [.title, .recommendation, .executiveSummary, .investmentThesis,
            .investmentHighlights, .businessAnalysis, .downsideAnalysis, .termSheet, .status]

/-- A phase writes a field when some document and patch make the merge change
that field. -/
def writes (k : Phase) (f : Field) : Prop :=
  ∃ m p, proj f (phaseMerge k m p) ≠ proj f m

/-- Fields merged by the plain `patch.field || document.field` rule, paired
with their JSON key in the phase's parsed output. -/
def phaseFallbackFields : Phase → List (Field × String)
  | .p1 => [(.companyOverview, "companyOverview"), (.marketAnalysis, "marketAnalysis")]
  | .p2 => [(.financialModel, "financialModel"), (.financialAnalysis, "financialAnalysis"),
            (.scenarios, "scenarios"), (.capitalStructure, "capitalStructure")]
  | .p3 => [(.risks, "risks")]
  | .p4 => [(.capitalStructure, "capitalStructure")]
  | .p5 => []
  | .p6 => [(.recommendation, "recommendation"), (.executiveSummary, "executiveSummary"),
            (.investmentThesis, "investmentThesis"), (.investmentHighlights, "investmentHighlights"),
            (.businessAnalysis, "businessAnalysis"), (.downsideAnalysis, "downsideAnalysis")]

/-- The three covenant keys the phase-5 merge sets on the term sheet. -/
def covenantKeys : List String :=
  ["maintenanceCovenants", "negativeCovenants", "conditionsPrecedent"]

/-- Boolean well-formedness of a document's term sheet as every reachable
document satisfies it (the initial `INITIAL_MEMO_STATE.termSheet` object has
no duplicate keys and carries the three covenant collections): the term
sheet is an object, its keys are distinct, and the covenant keys are
present. -/
def memoTsWF (m : Memo) : Bool :=
  match m.termSheet with
  | .obj kvs =>
    ((kvs.map Prod.fst).Nodup : Bool)
      && covenantKeys.all (fun k => (lookupKey kvs k).isSome)
  | _ => false

/-- Boolean check that the patch's `termSheet`, when it is an object, has no
duplicate keys — automatic for anything produced by `JSON.parse`. -/
def patchTsNodup (p : JsonV) : Bool :=
  match getField p "termSheet" with
  | .obj kvs => ((kvs.map Prod.fst).Nodup : Bool)
  | _ => true

/-- An association list with pairwise-distinct keys, as every JavaScript
object is. -/
def NodupKeys (l : List (String × JsonV)) : Prop :=
  (l.map Prod.fst).Nodup

/-- Every binding of key `k` in an association list carries value `v`. -/
def allKey (l : List (String × JsonV)) (k : String) (v : JsonV) : Prop :=
  ∀ kv ∈ l, kv.1 = k → kv.2 = v

/-- The initial document `INITIAL_MEMO_STATE` of src/types.ts (the rows of
the two pre-populated financial-model sheets are elided — no claim under
study inspects inside `financialModel`). -/
def initialMemo : Memo where
  title := .str "New Investment Memo"
  status := .str "Draft"
  lastUpdated := .str "2024-01-01"
  recommendation := .str "Pending Analysis"
  executiveSummary := .str ""
  investmentThesis := .arr []
  keyTerms := .arr []
  termSheet := .obj [("borrower", .str "Target Company"), ("facilityType", .str "Senior Term Loan"),
    ("amount", .str "$0"), ("tenor", .str "5 Years"), ("pricing", .str "TBD"),
    ("baseRate", .str "SOFR"), ("spread", .str "5.0%"), ("pricingGrid", .arr []),
    ("fees", .arr []), ("amortization", .arr []), ("prepayments", .arr []),
    ("maintenanceCovenants", .arr []), ("negativeCovenants", .arr []), ("collateral", .arr []),
    ("conditionsPrecedent", .arr []), ("reportingRequirements", .arr [])]
  capitalStructure := .arr []
  companyOverview := .str ""
  marketAnalysis := .str ""
  investmentHighlights := .arr []
  risks := .arr []
  scenarios := .arr []
  liquidationWaterfall := .arr []
  downsideAnalysis := .str ""
  businessAnalysis := .str ""
  financialModel := .obj [("activeSheetId", .str "dashboard"),
    ("activeScenario", .str "Base Case"), ("sheets", .arr [])]
  financialAnalysis := .str ""

/-- A document whose status has been moved to Review before a new run. -/
def reviewMemo : Memo :=
  { initialMemo with status := .str "Review" }

/-- A document whose scenario list is non-empty, for exercising the merges. -/
def scenarioMemo : Memo :=
  { initialMemo with
    scenarios := .arr [.obj [("caseName", .str "Base Case"), ("irr", .num 18)]] }

/-- A phase-2-shaped patch whose `scenarios` key is present but an empty
list. -/
def emptyListPatch : JsonV := .obj [("scenarios", .arr [])]

/-- A patch carrying a non-empty capital structure. -/
def capPatch : JsonV :=
  .obj [("capitalStructure", .arr [.obj [("instrument", .str "Term Loan B")]])]

/-- A Writer-phase-shaped patch that updates the borrower but supplies no
title. -/
def borrowerPatch : JsonV :=
  .obj [("termSheet", .obj [("borrower", .str "Acme Corp")])]

/-- A plain-text attachment (not a PDF, not an image). -/
def textAtt : Attachment :=
  ⟨"notes.txt", "text/plain",
   "SGVsbG8gV29ybGQhIFRoaXMgaXMgYSBsb25nIGJhc2U2NCBwYXlsb2FkIGZvciB0cnVuY2F0aW9u"⟩

/-- A PDF attachment. -/
def pdfAtt : Attachment := ⟨"report.pdf", "application/pdf", "JVBERi0xLjQ="⟩

/-- A PNG image attachment. -/
def imgAtt : Attachment := ⟨"chart.png", "image/png", "iVBORw0KGgo="⟩

/-- Spec-modelled per-attachment routing of §6 (binary side): a PDF becomes a
document-analysis block, an image a visual block, anything else no binary
block at all. Spec-side counterpart compared against `buildClaudeContent`. -/
def routeBlock (att : Attachment) : Option ContentBlock :=
  if att.mimeType = "application/pdf" then some (.document "application/pdf" att.data)
  else if startsWithL att.mimeType.data ("image/".data) then some (.image att.mimeType att.data)
  else none

/-- Spec-modelled per-attachment routing of §6 (text side): the inline text
reference each attachment contributes to the prompt context; for a
non-PDF-non-image attachment this is the degraded reference naming the file
plus the first 50 characters of its base64 payload. -/
def routeText (att : Attachment) : String :=
  if att.mimeType = "application/pdf" then "\n\n[Attached PDF: " ++ att.name ++ "]"
  else if startsWithL att.mimeType.data ("image/".data) then
    "\n\n[Attached Image: " ++ att.name ++ "]"
  else
    "\n\n[Attachment: " ++ att.name ++ " (" ++ att.mimeType ++ ")]\n(Base64 Data: "
      ++ take50 att.data ++ "...)"

/-- Spec-modelled concatenation of the inline text references all
attachments contribute, in order. -/
def routeTextAll : List Attachment → String
  | [] => ""
  | a :: rest => routeText a ++ routeTextAll rest

/-- A backend response content list: a thinking block followed by two text
blocks, the first of which carries a fenced JSON payload. -/
def sampleContent : JsonV := .arr [
  .obj [("type", .str "thinking"), ("thinking", .str "chain of thought")],
  .obj [("type", .str "text"), ("text", .str "```json\n\x7b\"companyOverview\":\"X\"\x7d\n```")],
  .obj [("type", .str "text"), ("text", .str "second text block")]]

/-- An oracle where every phase parses to the empty object. -/
def ocAllOk : Phase → Except String JsonV := fun _ => .ok (.obj [])

/-- An oracle whose phase-3 backend call raises with message `boom`. -/
def ocErrP3 : Phase → Except String JsonV := fun k =>
  match k with
  | .p3 => .error "boom"
  | _ => .ok (.obj [])

/-- An oracle whose phase-1 backend call raises with message `boom`. -/
def ocErrP1 : Phase → Except String JsonV := fun k =>
  match k with
  | .p1 => .error "boom"
  | _ => .ok (.obj [])

theorem jsOr_eq_specFallback (a b : JsonV) : jsOr a b = specFallback a b := by
  cases a with
  | undefined => rfl
  | null => rfl
  | bool bb => cases bb <;> rfl
  | num n =>
    by_cases h : n = 0 <;> simp [jsOr, truthy, specFallback, h]
  | str s =>
    by_cases h : s = "" <;> simp [jsOr, truthy, specFallback, h]
  | arr xs => rfl
  | obj kvs => rfl

theorem jsOr_idem (a b : JsonV) : jsOr a (jsOr a b) = jsOr a b := by
  unfold jsOr
  by_cases h : truthy a <;> simp [h]

theorem map_id_of {α : Type} (l : List α) (f : α → α) (h : ∀ x ∈ l, f x = x) :
    l.map f = l := by
  induction l with
  | nil => rfl
  | cons x xs ih =>
    simp only [List.map_cons, h x (List.mem_cons_self x xs)]
    rw [ih (fun y hy => h y (List.mem_cons_of_mem x hy))]

theorem lookupKey_cons (kv : String × JsonV) (kvs : List (String × JsonV)) (k : String) :
    lookupKey (kv :: kvs) k = if kv.1 = k then some kv.2 else lookupKey kvs k := by
  by_cases h : kv.1 = k
  · have hb : (kv.1 == k) = true := by simp [h]
    simp [lookupKey, List.find?, hb, h]
  · have hb : (kv.1 == k) = false := by simp [h]
    simp [lookupKey, List.find?, hb, h]

theorem lookupKey_append (a b : List (String × JsonV)) (k : String) :
    lookupKey (a ++ b) k = specKeyMerge (lookupKey a k) (lookupKey b k) := by
  induction a with
  | nil => simp [lookupKey, specKeyMerge]
  | cons kv kvs ih =>
    rw [List.cons_append, lookupKey_cons, lookupKey_cons]
    by_cases h : kv.1 = k <;> simp [h, ih, specKeyMerge]

theorem lookupKey_map_spread (a b : List (String × JsonV)) (k : String) :
    lookupKey (a.map (fun kv =>
        match lookupKey b kv.1 with
        | some v => (kv.1, v)
        | none => kv)) k
      = (lookupKey a k).map (fun v =>
          match lookupKey b k with
          | some w => w
          | none => v) := by
  induction a with
  | nil => simp [lookupKey]
  | cons kv kvs ih =>
    rw [List.map_cons]
    by_cases h : kv.1 = k
    · subst h
      cases hb : lookupKey b kv.1 <;>
        simp [lookupKey_cons, hb]
    · cases hb : lookupKey b kv.1 <;>
        simp [lookupKey_cons, hb, h, ih]

theorem lookupKey_filter_of_none (a b : List (String × JsonV)) (k : String)
    (h : lookupKey a k = none) :
    lookupKey (b.filter (fun kv => (lookupKey a kv.1).isNone)) k = lookupKey b k := by
  induction b with
  | nil => rfl
  | cons kv kvs ih =>
    by_cases hk : kv.1 = k
    · subst hk
      simp [List.filter_cons, h, lookupKey_cons]
    · cases ha : lookupKey a kv.1 <;>
        simp [List.filter_cons, ha, lookupKey_cons, hk, ih]

theorem lookupKey_filter_of_some (a b : List (String × JsonV)) (k : String) (v : JsonV)
    (h : lookupKey a k = some v) :
    lookupKey (b.filter (fun kv => (lookupKey a kv.1).isNone)) k = none := by
  induction b with
  | nil => rfl
  | cons kv kvs ih =>
    by_cases hk : kv.1 = k
    · subst hk
      simp [List.filter_cons, h, ih]
    · cases ha : lookupKey a kv.1 <;>
        simp [List.filter_cons, ha, lookupKey_cons, hk, ih]

/-- Key-wise behaviour of the object spread: a key present in the patch side
wins; otherwise the base side's binding survives. -/
theorem lookupKey_spreadObj (a b : List (String × JsonV)) (k : String) :
    lookupKey (spreadObj a b) k = specKeyMerge (lookupKey b k) (lookupKey a k) := by
  unfold spreadObj
  rw [lookupKey_append, lookupKey_map_spread]
  cases ha : lookupKey a k with
  | none =>
    rw [lookupKey_filter_of_none a b k ha]
    cases hb : lookupKey b k <;> simp [specKeyMerge]
  | some v =>
    rw [lookupKey_filter_of_some a b k v ha]
    cases hb : lookupKey b k <;> simp [specKeyMerge]

theorem spreadObj_nil (a : List (String × JsonV)) : spreadObj a [] = a := by
  unfold spreadObj
  simp only [List.filter_nil, List.append_nil]
  exact map_id_of a _ (fun x _ => rfl)

theorem lookupKey_isSome_of_mem {l : List (String × JsonV)} {kv : String × JsonV}
    (h : kv ∈ l) : (lookupKey l kv.1).isSome := by
  induction l with
  | nil => cases h
  | cons a as ih =>
    rw [lookupKey_cons]
    by_cases hk : a.1 = kv.1
    · simp [hk]
    · rcases List.mem_cons.mp h with rfl | hmem
      · exact absurd rfl hk
      · simp only [if_neg hk]
        exact ih hmem

theorem lookupKey_of_mem_nodup {l : List (String × JsonV)} (hn : NodupKeys l)
    {kv : String × JsonV} (h : kv ∈ l) : lookupKey l kv.1 = some kv.2 := by
  induction l with
  | nil => cases h
  | cons a as ih =>
    have hn' : (a.1 :: as.map Prod.fst).Nodup := by
      simpa [NodupKeys] using hn
    rw [lookupKey_cons]
    rcases List.mem_cons.mp h with rfl | hmem
    · simp
    · have hk : a.1 ≠ kv.1 := by
        intro he
        have hmem' : kv.1 ∈ as.map Prod.fst := List.mem_map_of_mem Prod.fst hmem
        rw [he] at hn'
        exact (List.nodup_cons.mp hn').1 hmem'
      rw [if_neg hk]
      exact ih ((List.nodup_cons.mp (by simpa [NodupKeys] using hn)).2) hmem

/-- Spreading the same object twice is the same as spreading it once (for the
duplicate-free objects JavaScript actually produces). -/
theorem spreadObj_idem (a b : List (String × JsonV)) (hb : NodupKeys b) :
    spreadObj (spreadObj a b) b = spreadObj a b := by
  set X := spreadObj a b with hX
  have hfilter : b.filter (fun kv => (lookupKey X kv.1).isNone) = [] := by
    rw [List.filter_eq_nil_iff]
    intro kv hkv
    rw [hX, lookupKey_spreadObj]
    have hs := lookupKey_isSome_of_mem hkv
    cases hb' : lookupKey b kv.1 with
    | none => rw [hb'] at hs; simp at hs
    | some v => simp [specKeyMerge]
  have hmap : X.map (fun kv =>
      match lookupKey b kv.1 with
      | some v => (kv.1, v)
      | none => kv) = X := by
    apply map_id_of
    intro x hx
    rw [hX] at hx
    unfold spreadObj at hx
    rcases List.mem_append.mp hx with hxa | hxb
    · rcases List.mem_map.mp hxa with ⟨y, _, rfl⟩
      cases hyb : lookupKey b y.1 with
      | some v => simp [hyb]
      | none => simp [hyb]
    · have hxb' := List.mem_of_mem_filter hxb
      have hlook := lookupKey_of_mem_nodup hb hxb'
      simp [hlook]
  calc spreadObj X b
      = X.map (fun kv =>
          match lookupKey b kv.1 with
          | some v => (kv.1, v)
          | none => kv) ++ b.filter (fun kv => (lookupKey X kv.1).isNone) := rfl
    _ = X := by rw [hfilter, hmap, List.append_nil]

theorem lookupKey_mapset_self (l : List (String × JsonV)) (k : String) (v : JsonV) :
    lookupKey (l.map (fun kv => if kv.1 = k then (k, v) else kv)) k
      = (lookupKey l k).map (fun _ => v) := by
  induction l with
  | nil => rfl
  | cons a as ih =>
    by_cases h : a.1 = k
    · simp [lookupKey_cons, h]
    · simp [lookupKey_cons, h, ih]

theorem lookupKey_mapset_other (l : List (String × JsonV)) (k : String) (v : JsonV)
    (k' : String) (h : k' ≠ k) :
    lookupKey (l.map (fun kv => if kv.1 = k then (k, v) else kv)) k' = lookupKey l k' := by
  induction l with
  | nil => rfl
  | cons a as ih =>
    by_cases ha : a.1 = k
    · have hne : k ≠ k' := fun he => h he.symm
      simp [lookupKey_cons, ha, hne, ih]
    · by_cases ha' : a.1 = k' <;> simp [lookupKey_cons, ha, ha', h, ih]

theorem lookupKey_setKey_self (l : List (String × JsonV)) (k : String) (v : JsonV) :
    lookupKey (setKey l k v) k = some v := by
  unfold setKey
  by_cases h : (lookupKey l k).isSome
  · rw [if_pos h, lookupKey_mapset_self]
    cases hl : lookupKey l k with
    | none => rw [hl] at h; simp at h
    | some w => simp
  · rw [if_neg h, lookupKey_append]
    cases hl : lookupKey l k with
    | none => simp [specKeyMerge, lookupKey_cons]
    | some w => rw [hl] at h; simp at h

theorem lookupKey_setKey_other (l : List (String × JsonV)) (k : String) (v : JsonV)
    (k' : String) (h : k' ≠ k) :
    lookupKey (setKey l k v) k' = lookupKey l k' := by
  unfold setKey
  by_cases hs : (lookupKey l k).isSome
  · rw [if_pos hs]
    exact lookupKey_mapset_other l k v k' h
  · rw [if_neg hs, lookupKey_append]
    have hone : lookupKey [(k, v)] k' = none := by
      rw [lookupKey_cons]
      have hne : k ≠ k' := fun he => h he.symm
      rw [if_neg hne]
      rfl
    rw [hone]
    cases lookupKey l k' <;> simp [specKeyMerge]

theorem allKey_setKey_self (l : List (String × JsonV)) (k : String) (v : JsonV) :
    allKey (setKey l k v) k v := by
  unfold setKey
  by_cases h : (lookupKey l k).isSome
  · rw [if_pos h]
    intro kv hkv hk
    rcases List.mem_map.mp hkv with ⟨y, _, rfl⟩
    by_cases hy : y.1 = k
    · simp [hy]
    · rw [if_neg hy] at hk ⊢
      exact absurd hk hy
  · rw [if_neg h]
    intro kv hkv hk
    rcases List.mem_append.mp hkv with hl | hr
    · have hsome := lookupKey_isSome_of_mem hl
      rw [hk] at hsome
      exact absurd hsome (by simpa using h)
    · simp at hr
      rw [hr]

theorem allKey_setKey_other (l : List (String × JsonV)) (k : String) (v : JsonV)
    (k' : String) (v' : JsonV) (hne : k' ≠ k) (h : allKey l k v) :
    allKey (setKey l k' v') k v := by
  unfold setKey
  by_cases hs : (lookupKey l k').isSome
  · rw [if_pos hs]
    intro kv hkv hk
    rcases List.mem_map.mp hkv with ⟨y, hy, rfl⟩
    by_cases hy' : y.1 = k'
    · simp only [if_pos hy'] at hk ⊢
      exact absurd hk hne
    · simp only [if_neg hy'] at hk ⊢
      exact h y hy hk
  · rw [if_neg hs]
    intro kv hkv hk
    rcases List.mem_append.mp hkv with hl | hr
    · exact h kv hl hk
    · simp at hr
      rw [hr] at hk
      exact absurd hk hne

theorem setKey_of_allKey (l : List (String × JsonV)) (k : String) (v : JsonV)
    (hs : (lookupKey l k).isSome) (h : allKey l k v) : setKey l k v = l := by
  unfold setKey
  rw [if_pos hs]
  apply map_id_of
  intro x hx
  by_cases h1 : x.1 = k
  · rw [if_pos h1]
    have h2 := h x hx h1
    calc (k, v) = (x.1, x.2) := by rw [h1, h2]
      _ = x := rfl
  · rw [if_neg h1]

theorem allKey_of_nodup (l : List (String × JsonV)) (k : String) (v : JsonV)
    (hn : NodupKeys l) (hlk : lookupKey l k = some v) : allKey l k v := by
  intro kv hkv hk
  have hself := lookupKey_of_mem_nodup hn hkv
  rw [hk, hlk] at hself
  injection hself with he
  rw [he]

theorem isNullJ_eq_false {v : JsonV} (h : v ≠ .null) : isNullJ v = false := by
  cases v <;> first | rfl | exact absurd rfl h

/-- A run over phases that all succeed with non-`null` patches emits exactly
the interleaved `active`/`completed` pairs in phase order, folds every
phase's merge into the document, and raises nothing. -/
theorem runPhases_success (failMsg : String → String) (activeMsg completedMsg : Phase → String)
    (oc : Phase → Except String JsonV) (l : List Phase) (m : Memo)
    (h : ∀ k ∈ l, ∃ v, oc k = .ok v ∧ v ≠ .null) :
    runPhases failMsg activeMsg completedMsg oc l m
      = ⟨l.flatMap (phasePairEvents activeMsg completedMsg), mergedAlong oc l m, none⟩ := by
  induction l generalizing m with
  | nil => rfl
  | cons k rest ih =>
    obtain ⟨v, hok, hnn⟩ := h k (List.mem_cons_self k rest)
    have hrest : ∀ j ∈ rest, ∃ w, oc j = .ok w ∧ w ≠ .null :=
      fun j hj => h j (List.mem_cons_of_mem k hj)
    have hmerged : mergedAlong oc (k :: rest) m = mergedAlong oc rest (phaseMerge k m v) := by
      unfold mergedAlong
      rw [List.foldl_cons]
      unfold okV
      rw [hok]
    unfold runPhases
    rw [hok]
    simp only [isNullJ_eq_false hnn, if_false, ih _ hrest, hmerged]
    rfl

/-- A run whose phases up to some phase `k` succeed with non-`null` patches
and whose phase `k` raises emits the success pairs, then `k`'s `active`
event, then one `failed` event tagged `Orchestrator`; the document is the
merge of the successful phases only, and the error is re-raised. -/
theorem runPhases_error (failMsg : String → String) (activeMsg completedMsg : Phase → String)
    (oc : Phase → Except String JsonV) (l₁ : List Phase) (k : Phase) (l₂ : List Phase)
    (m : Memo) (e : String)
    (h : ∀ j ∈ l₁, ∃ v, oc j = .ok v ∧ v ≠ .null) (he : oc k = .error e) :
    runPhases failMsg activeMsg completedMsg oc (l₁ ++ k :: l₂) m
      = ⟨l₁.flatMap (phasePairEvents activeMsg completedMsg)
          ++ [⟨phaseAgent k, .active, activeMsg k⟩, ⟨.Orchestrator, .failed, failMsg e⟩],
         mergedAlong oc l₁ m, some e⟩ := by
  induction l₁ generalizing m with
  | nil =>
    simp only [List.nil_append, List.flatMap_nil]
    unfold runPhases
    rw [he]
    rfl
  | cons j rest ih =>
    obtain ⟨v, hok, hnn⟩ := h j (List.mem_cons_self j rest)
    have hrest : ∀ i ∈ rest, ∃ w, oc i = .ok w ∧ w ≠ .null :=
      fun i hi => h i (List.mem_cons_of_mem j hi)
    have hmerged : mergedAlong oc (j :: rest) m = mergedAlong oc rest (phaseMerge j m v) := by
      unfold mergedAlong
      rw [List.foldl_cons]
      unfold okV
      rw [hok]
    rw [List.cons_append]
    unfold runPhases
    rw [hok]
    simp only [isNullJ_eq_false hnn, if_false, ih _ hrest, hmerged]
    rfl

/-- Success pairs contain no `failed` event. -/
theorem flatMap_pairs_no_failed (activeMsg completedMsg : Phase → String) (l : List Phase) :
    (l.flatMap (phasePairEvents activeMsg completedMsg)).filter
      (fun ev => ev.status == EvStatus.failed) = [] := by
  induction l with
  | nil => rfl
  | cons k rest ih =>
    simp only [List.flatMap_cons, phasePairEvents, List.filter_append, ih, List.append_nil]
    rfl

/-- Decomposition of the phase order at a given phase. -/
theorem phaseList_decomp (k : Phase) :
    ∃ l₂, phaseList = phasesBefore k ++ k :: l₂ := by
  cases k
  · exact ⟨[.p2, .p3, .p4, .p5, .p6], rfl⟩
  · exact ⟨[.p3, .p4, .p5, .p6], rfl⟩
  · exact ⟨[.p4, .p5, .p6], rfl⟩
  · exact ⟨[.p5, .p6], rfl⟩
  · exact ⟨[.p6], rfl⟩
  · exact ⟨[], rfl⟩

/-- Substring via a concrete witness position: a string contains any of its
suffixes' prefixes; in particular `a ++ b` contains `b`. -/
theorem strContains_append (a b : String) : strContains (a ++ b) b = true := by
  have hdata : (a ++ b).data = a.data ++ b.data := rfl
  have hself : ∀ l : List Char, startsWithL l l = true := by
    intro l
    induction l with
    | nil => rfl
    | cons c cs ih => simp [startsWithL, ih]
  rw [strContains, List.any_eq_true]
  refine ⟨a.data.length, List.mem_range.mpr ?_, ?_⟩
  · rw [hdata, List.length_append]
    omega
  · rw [hdata, List.drop_left]
    exact hself b.data

theorem nodup_of_patchTsNodup (p : JsonV) (h : patchTsNodup p = true) :
    NodupKeys (asObj (getField p "termSheet")) := by
  unfold patchTsNodup at h
  cases hg : getField p "termSheet" with
  | obj kvs =>
    rw [hg] at h
    simpa [NodupKeys, asObj] using h
  | undefined => simp [NodupKeys, asObj]
  | null => simp [NodupKeys, asObj]
  | bool b => simp [NodupKeys, asObj]
  | num n => simp [NodupKeys, asObj]
  | str s => simp [NodupKeys, asObj]
  | arr xs => simp [NodupKeys, asObj]

theorem memoTsWF_spec (m : Memo) (h : memoTsWF m = true) :
    ∃ kvs, m.termSheet = .obj kvs ∧ NodupKeys kvs
      ∧ (lookupKey kvs "maintenanceCovenants").isSome
      ∧ (lookupKey kvs "negativeCovenants").isSome
      ∧ (lookupKey kvs "conditionsPrecedent").isSome := by
  unfold memoTsWF at h
  cases hg : m.termSheet with
  | obj kvs =>
    rw [hg, Bool.and_eq_true] at h
    obtain ⟨h1, h2⟩ := h
    simp only [covenantKeys, List.all_cons, List.all_nil, Bool.and_eq_true, Bool.and_true] at h2
    exact ⟨kvs, rfl, by simpa [NodupKeys] using h1, h2.1, h2.2.1, h2.2.2⟩
  | undefined => rw [hg] at h; cases h
  | null => rw [hg] at h; cases h
  | bool b => rw [hg] at h; cases h
  | num n => rw [hg] at h; cases h
  | str s => rw [hg] at h; cases h
  | arr xs => rw [hg] at h; cases h

theorem lookupKey_covChain_K1 (T : List (String × JsonV)) (v1 v2 v3 : JsonV) :
    lookupKey (covChain T v1 v2 v3) "maintenanceCovenants" = some v1 := by
  unfold covChain
  rw [lookupKey_setKey_other _ _ _ _ (by decide), lookupKey_setKey_other _ _ _ _ (by decide),
    lookupKey_setKey_self]

theorem lookupKey_covChain_K2 (T : List (String × JsonV)) (v1 v2 v3 : JsonV) :
    lookupKey (covChain T v1 v2 v3) "negativeCovenants" = some v2 := by
  unfold covChain
  rw [lookupKey_setKey_other _ _ _ _ (by decide), lookupKey_setKey_self]

theorem lookupKey_covChain_K3 (T : List (String × JsonV)) (v1 v2 v3 : JsonV) :
    lookupKey (covChain T v1 v2 v3) "conditionsPrecedent" = some v3 := by
  unfold covChain
  rw [lookupKey_setKey_self]

theorem lookupKey_covChain_other (T : List (String × JsonV)) (v1 v2 v3 : JsonV) (k : String)
    (h1 : k ≠ "maintenanceCovenants") (h2 : k ≠ "negativeCovenants")
    (h3 : k ≠ "conditionsPrecedent") :
    lookupKey (covChain T v1 v2 v3) k = lookupKey T k := by
  unfold covChain
  rw [lookupKey_setKey_other _ _ _ _ h3, lookupKey_setKey_other _ _ _ _ h2,
    lookupKey_setKey_other _ _ _ _ h1]

theorem covChain_reset (T : List (String × JsonV)) (v1 v2 v3 : JsonV) :
    covChain (covChain T v1 v2 v3) v1 v2 v3 = covChain T v1 v2 v3 := by
  have hall1 : allKey (covChain T v1 v2 v3) "maintenanceCovenants" v1 := by
    unfold covChain
    apply allKey_setKey_other _ _ _ _ _ (by decide)
    apply allKey_setKey_other _ _ _ _ _ (by decide)
    exact allKey_setKey_self _ _ _
  have hall2 : allKey (covChain T v1 v2 v3) "negativeCovenants" v2 := by
    unfold covChain
    apply allKey_setKey_other _ _ _ _ _ (by decide)
    exact allKey_setKey_self _ _ _
  have hall3 : allKey (covChain T v1 v2 v3) "conditionsPrecedent" v3 := by
    unfold covChain
    exact allKey_setKey_self _ _ _
  have hs1 : (lookupKey (covChain T v1 v2 v3) "maintenanceCovenants").isSome := by
    rw [lookupKey_covChain_K1]; rfl
  have hs2 : (lookupKey (covChain T v1 v2 v3) "negativeCovenants").isSome := by
    rw [lookupKey_covChain_K2]; rfl
  have hs3 : (lookupKey (covChain T v1 v2 v3) "conditionsPrecedent").isSome := by
    rw [lookupKey_covChain_K3]; rfl
  show setKey (setKey (setKey (covChain T v1 v2 v3) "maintenanceCovenants" v1)
    "negativeCovenants" v2) "conditionsPrecedent" v3 = covChain T v1 v2 v3
  rw [setKey_of_allKey _ _ _ hs1 hall1, setKey_of_allKey _ _ _ hs2 hall2,
    setKey_of_allKey _ _ _ hs3 hall3]

theorem covChain_restable (T : List (String × JsonV)) (pv1 pv2 pv3 o1 o2 o3 : JsonV) :
    covChain (covChain T (jsOr pv1 o1) (jsOr pv2 o2) (jsOr pv3 o3))
      (jsOr pv1 (getField (.obj (covChain T (jsOr pv1 o1) (jsOr pv2 o2) (jsOr pv3 o3)))
        "maintenanceCovenants"))
      (jsOr pv2 (getField (.obj (covChain T (jsOr pv1 o1) (jsOr pv2 o2) (jsOr pv3 o3)))
        "negativeCovenants"))
      (jsOr pv3 (getField (.obj (covChain T (jsOr pv1 o1) (jsOr pv2 o2) (jsOr pv3 o3)))
        "conditionsPrecedent"))
    = covChain T (jsOr pv1 o1) (jsOr pv2 o2) (jsOr pv3 o3) := by
  have e1 : getField (JsonV.obj (covChain T (jsOr pv1 o1) (jsOr pv2 o2) (jsOr pv3 o3)))
      "maintenanceCovenants" = jsOr pv1 o1 := by
    show (lookupKey (covChain T (jsOr pv1 o1) (jsOr pv2 o2) (jsOr pv3 o3))
      "maintenanceCovenants").getD .undefined = jsOr pv1 o1
    rw [lookupKey_covChain_K1]
    rfl
  have e2 : getField (JsonV.obj (covChain T (jsOr pv1 o1) (jsOr pv2 o2) (jsOr pv3 o3)))
      "negativeCovenants" = jsOr pv2 o2 := by
    show (lookupKey (covChain T (jsOr pv1 o1) (jsOr pv2 o2) (jsOr pv3 o3))
      "negativeCovenants").getD .undefined = jsOr pv2 o2
    rw [lookupKey_covChain_K2]
    rfl
  have e3 : getField (JsonV.obj (covChain T (jsOr pv1 o1) (jsOr pv2 o2) (jsOr pv3 o3)))
      "conditionsPrecedent" = jsOr pv3 o3 := by
    show (lookupKey (covChain T (jsOr pv1 o1) (jsOr pv2 o2) (jsOr pv3 o3))
      "conditionsPrecedent").getD .undefined = jsOr pv3 o3
    rw [lookupKey_covChain_K3]
    rfl
  rw [e1, e2, e3, jsOr_idem, jsOr_idem, jsOr_idem]
  exact covChain_reset T (jsOr pv1 o1) (jsOr pv2 o2) (jsOr pv3 o3)

theorem mergePhase1_idem (m : Memo) (p : JsonV) :
    mergePhase1 (mergePhase1 m p) p = mergePhase1 m p := by
  ext <;> first | rfl | exact jsOr_idem _ _

theorem mergePhase2_idem (m : Memo) (p : JsonV) :
    mergePhase2 (mergePhase2 m p) p = mergePhase2 m p := by
  ext <;> first | rfl | exact jsOr_idem _ _

theorem mergePhase3_idem (m : Memo) (p : JsonV) :
    mergePhase3 (mergePhase3 m p) p = mergePhase3 m p := by
  ext <;> first | rfl | exact jsOr_idem _ _

theorem mergePhase4_idem (m : Memo) (p : JsonV) (hp : patchTsNodup p = true) :
    mergePhase4 (mergePhase4 m p) p = mergePhase4 m p := by
  have hB := nodup_of_patchTsNodup p hp
  ext <;> first
    | rfl
    | exact jsOr_idem _ _
    | exact congrArg JsonV.obj (spreadObj_idem _ _ hB)

theorem mergePhase5_idem (m : Memo) (p : JsonV) :
    mergePhase5 (mergePhase5 m p) p = mergePhase5 m p := by
  ext <;> first
    | rfl
    | exact congrArg JsonV.obj (covChain_restable (asObj m.termSheet)
        (getField (getField p "termSheet") "maintenanceCovenants")
        (getField (getField p "termSheet") "negativeCovenants")
        (getField (getField p "termSheet") "conditionsPrecedent")
        (getField m.termSheet "maintenanceCovenants")
        (getField m.termSheet "negativeCovenants")
        (getField m.termSheet "conditionsPrecedent"))

theorem mergePhase1_identity (m : Memo) : mergePhase1 m (.obj []) = m := rfl

theorem mergePhase2_identity (m : Memo) : mergePhase2 m (.obj []) = m := rfl

theorem mergePhase3_identity (m : Memo) : mergePhase3 m (.obj []) = m := rfl

theorem mergePhase4_identity (m : Memo) (h : memoTsWF m = true) :
    mergePhase4 m (.obj []) = m := by
  obtain ⟨kvs, hts, _, _, _, _⟩ := memoTsWF_spec m h
  have hterm : (mergePhase4 m (JsonV.obj [])).termSheet = m.termSheet := by
    show JsonV.obj (spreadObj (asObj m.termSheet) []) = m.termSheet
    rw [spreadObj_nil, hts]
    rfl
  ext <;> first | rfl | exact hterm

theorem mergePhase5_identity (m : Memo) (h : memoTsWF m = true) :
    mergePhase5 m (.obj []) = m := by
  obtain ⟨kvs, hts, hnd, hs1, hs2, hs3⟩ := memoTsWF_spec m h
  obtain ⟨u1, hu1⟩ := Option.isSome_iff_exists.mp hs1
  obtain ⟨u2, hu2⟩ := Option.isSome_iff_exists.mp hs2
  obtain ⟨u3, hu3⟩ := Option.isSome_iff_exists.mp hs3
  have hterm : (mergePhase5 m (JsonV.obj [])).termSheet = m.termSheet := by
    show JsonV.obj (covChain (asObj m.termSheet)
      (getField m.termSheet "maintenanceCovenants")
      (getField m.termSheet "negativeCovenants")
      (getField m.termSheet "conditionsPrecedent")) = m.termSheet
    rw [hts]
    show JsonV.obj (covChain kvs
      ((lookupKey kvs "maintenanceCovenants").getD .undefined)
      ((lookupKey kvs "negativeCovenants").getD .undefined)
      ((lookupKey kvs "conditionsPrecedent").getD .undefined)) = JsonV.obj kvs
    rw [hu1, hu2, hu3]
    refine congrArg JsonV.obj ?_
    show setKey (setKey (setKey kvs "maintenanceCovenants" u1) "negativeCovenants" u2)
      "conditionsPrecedent" u3 = kvs
    rw [setKey_of_allKey kvs _ _ (by rw [hu1]; rfl) (allKey_of_nodup kvs _ u1 hnd hu1)]
    rw [setKey_of_allKey kvs _ _ (by rw [hu2]; rfl) (allKey_of_nodup kvs _ u2 hnd hu2)]
    rw [setKey_of_allKey kvs _ _ (by rw [hu3]; rfl) (allKey_of_nodup kvs _ u3 hnd hu3)]
  ext <;> first | rfl | exact hterm

/-- A field outside a phase's footprint is never changed by that phase's
merge. -/
theorem proj_phaseMerge_unchanged (k : Phase) (f : Field) (hf : f ∉ phaseWritten k)
    (m : Memo) (p : JsonV) : proj f (phaseMerge k m p) = proj f m := by
  cases k <;> cases f <;> first | rfl | exact absurd (by decide) hf

/-- A phase only writes fields inside its footprint. -/
theorem writes_subset (k : Phase) (f : Field) (hw : writes k f) : f ∈ phaseWritten k := by
  by_contra hnot
  obtain ⟨m, p, hne⟩ := hw
  exact hne (proj_phaseMerge_unchanged k f hnot m p)

/-- The Financial-Modeling phase writes `capitalStructure`. -/
theorem writes_p2_cap : writes .p2 .capitalStructure :=
  ⟨initialMemo, capPatch, fun hc => by
    have h2 : JsonV.arr [JsonV.obj [("instrument", JsonV.str "Term Loan B")]] = JsonV.arr [] := hc
    injection h2 with h3
    exact List.noConfusion h3⟩

/-- The Deal-Structuring phase also writes `capitalStructure`. -/
theorem writes_p4_cap : writes .p4 .capitalStructure :=
  ⟨initialMemo, capPatch, fun hc => by
    have h2 : JsonV.arr [JsonV.obj [("instrument", JsonV.str "Term Loan B")]] = JsonV.arr [] := hc
    injection h2 with h3
    exact List.noConfusion h3⟩

/-- C4: the output extractor selects the first content segment tagged as
plain text; when no text segment exists, or the content is not a list, it
yields the empty-structure placeholder; `cleanJson` strips a leading
json-tagged or bare triple-backtick fence together with the surrounding
whitespace and the trailing fence, so the claim's concrete example reduces
exactly as stated, while unfenced text passes through unchanged. Both
functions are total Lean functions, embedding the source's never-raises
guarantee. -/
theorem C4_output_extractor :
    (∀ xs b, xs.find? isTextBlock = some b → extractText (.arr xs) = getField b "text")
    ∧ (∀ xs, xs.find? isTextBlock = none → extractText (.arr xs) = .str "\x7b\x7d")
    ∧ (∀ v, (∀ xs, v ≠ .arr xs) → extractText v = .str "\x7b\x7d")
    ∧ extractText sampleContent = .str "```json\n\x7b\"companyOverview\":\"X\"\x7d\n```"
    ∧ cleanJson "```json\n\x7b\"companyOverview\":\"X\"\x7d\n```"
        = "\x7b\"companyOverview\":\"X\"\x7d"
    ∧ cleanJson "```\n[1,2]\n```" = "[1,2]"
    ∧ cleanJson "plain text" = "plain text" := by
  refine ⟨?_, ?_, ?_, rfl, rfl, rfl, rfl⟩
  · intro xs b h
    simp only [extractText, h]
  · intro xs h
    simp only [extractText, h]
  · intro v hv
    cases v <;> first | rfl | exact absurd rfl (hv _)

/-- C4 witness: concrete evaluations of the extractor at a one-block text
list, a list with no text block, and a non-list content value. -/
theorem C4_witness :
    extractText (.arr [JsonV.obj [("type", .str "text"), ("text", .str "hello")]])
      = getField (JsonV.obj [("type", .str "text"), ("text", .str "hello")]) "text"
    ∧ extractText (.arr [JsonV.obj [("type", .str "tool_use")]]) = .str "\x7b\x7d"
    ∧ extractText .null = .str "\x7b\x7d" :=
  ⟨C4_output_extractor.1 [JsonV.obj [("type", .str "text"), ("text", .str "hello")]] _ rfl,
   C4_output_extractor.2.1 [JsonV.obj [("type", .str "tool_use")]] rfl,
   C4_output_extractor.2.2.1 .null (fun _ h => JsonV.noConfusion h)⟩

/-- C8: in the Claude generation helper, extended reasoning on the model that
supports it (the Sonnet model) puts a thinking budget in the request and
omits `temperature`; without extended reasoning the given temperature is
set and no thinking configuration is present. -/
theorem C8_thinking_config (model : String) (useThinking : Bool) (temperature : Rat)
    (hasSkills : Bool) :
    (useThinking = true → model = CLAUDE_SONNET →
      (buildClaudeConfig model useThinking temperature hasSkills).thinkingBudget = some 8000
        ∧ (buildClaudeConfig model useThinking temperature hasSkills).temperature = none)
    ∧ (useThinking = false →
      (buildClaudeConfig model useThinking temperature hasSkills).temperature = some temperature
        ∧ (buildClaudeConfig model useThinking temperature hasSkills).thinkingBudget = none) := by
  constructor
  · intro ht hm
    subst ht
    subst hm
    simp [buildClaudeConfig]
  · intro ht
    subst ht
    simp [buildClaudeConfig]

/-- C8 witness: a thinking call on the Sonnet model and a non-thinking call
on the Opus model. -/
theorem C8_witness :
    ((buildClaudeConfig CLAUDE_SONNET true 0 false).thinkingBudget = some 8000
      ∧ (buildClaudeConfig CLAUDE_SONNET true 0 false).temperature = none)
    ∧ ((buildClaudeConfig CLAUDE_OPUS false (2/5 : Rat) true).temperature = some (2/5 : Rat)
      ∧ (buildClaudeConfig CLAUDE_OPUS false (2/5 : Rat) true).thinkingBudget = none) :=
  ⟨(C8_thinking_config CLAUDE_SONNET true 0 false).1 rfl rfl,
   (C8_thinking_config CLAUDE_OPUS false (2/5 : Rat) true).2 rfl⟩

/-- C7 counterexample: under the Gemini provider, a `text/plain` attachment
is sent to the model as an inline binary part, not degraded to an inline
text reference — the claimed routing does not hold for every backend
provider. -/
theorem C7_counterexample :
    buildGeminiParts [textAtt] "User Request: analyze"
      = [.inlineData "text/plain" textAtt.data, .text "User Request: analyze"]
    ∧ textAtt.mimeType ≠ "application/pdf"
    ∧ startsWithL textAtt.mimeType.data ("image/".data) = false :=
  ⟨rfl, by decide, rfl⟩

/-- The attachment fold of `generateWithClaude` splits into the routed
binary blocks and the accumulated inline text references. -/
theorem claudeStep_foldl (l : List Attachment) (blocks : List ContentBlock) (ctx : String) :
    l.foldl claudeStep (blocks, ctx)
      = (blocks ++ l.filterMap routeBlock, ctx ++ routeTextAll l) := by
  induction l generalizing blocks ctx with
  | nil => simp [routeTextAll]
  | cons a rest ih =>
    rw [List.foldl_cons]
    by_cases h1 : a.mimeType = "application/pdf"
    · rw [show claudeStep (blocks, ctx) a
          = (blocks ++ [.document "application/pdf" a.data],
             ctx ++ ("\n\n[Attached PDF: " ++ a.name ++ "]")) from by simp [claudeStep, h1]]
      rw [ih]
      rw [show (a :: rest).filterMap routeBlock
          = .document "application/pdf" a.data :: rest.filterMap routeBlock from by
        simp [List.filterMap_cons, routeBlock, h1]]
      rw [show routeTextAll (a :: rest)
          = ("\n\n[Attached PDF: " ++ a.name ++ "]") ++ routeTextAll rest from by
        simp [routeTextAll, routeText, h1]]
      rw [List.append_assoc, String.append_assoc]
      rfl
    · by_cases h2 : startsWithL a.mimeType.data ("image/".data)
      · rw [show claudeStep (blocks, ctx) a
            = (blocks ++ [.image a.mimeType a.data],
               ctx ++ ("\n\n[Attached Image: " ++ a.name ++ "]")) from by
          simp [claudeStep, h1, h2]]
        rw [ih]
        rw [show (a :: rest).filterMap routeBlock
            = .image a.mimeType a.data :: rest.filterMap routeBlock from by
          simp [List.filterMap_cons, routeBlock, h1, h2]]
        rw [show routeTextAll (a :: rest)
            = ("\n\n[Attached Image: " ++ a.name ++ "]") ++ routeTextAll rest from by
          simp [routeTextAll, routeText, h1, h2]]
        rw [List.append_assoc, String.append_assoc]
        rfl
      · rw [show claudeStep (blocks, ctx) a
            = (blocks,
               ctx ++ ("\n\n[Attachment: " ++ a.name ++ " (" ++ a.mimeType
                 ++ ")]\n(Base64 Data: " ++ take50 a.data ++ "...)")) from by
          simp [claudeStep, h1, h2]]
        rw [ih]
        rw [show (a :: rest).filterMap routeBlock = rest.filterMap routeBlock from by
          simp [List.filterMap_cons, routeBlock, h1, h2]]
        rw [show routeTextAll (a :: rest)
            = ("\n\n[Attachment: " ++ a.name ++ " (" ++ a.mimeType
                ++ ")]\n(Base64 Data: " ++ take50 a.data ++ "...)") ++ routeTextAll rest from by
          simp [routeTextAll, routeText, h1, h2]]
        rw [String.append_assoc]

/-- C7 amended: the claimed per-MIME-type routing (PDF as a binary document
block, `image/*` as a binary image block, everything else degraded to an
inline text reference with the first 50 base64 characters, never binary)
holds for the Claude provider's request construction; the Gemini provider
instead passes every attachment, whatever its MIME type, to the model as an
inline binary part. -/
theorem C7_amended (userPrompt promptText : String) (atts : List Attachment) :
    buildClaudeContent userPrompt atts
      = atts.filterMap routeBlock ++ [.text (userPrompt ++ routeTextAll atts)]
    ∧ buildGeminiParts atts promptText
      = atts.map (fun a => .inlineData a.mimeType a.data) ++ [.text promptText] := by
  constructor
  · show (atts.foldl claudeStep ([], userPrompt)).1
        ++ [.text (atts.foldl claudeStep ([], userPrompt)).2]
      = atts.filterMap routeBlock ++ [.text (userPrompt ++ routeTextAll atts)]
    rw [claudeStep_foldl]
    rfl
  · rfl

/-- C3: every run of either orchestrator in which all six backend calls and
parses succeed emits exactly twelve events — `active` then `completed` for
DataCollector, FinancialModeler, RiskAnalyst, StructuringExpert,
CovenantDesigner, Writer, in that order, each phase's `completed` preceding
the next phase's `active`, and nothing else. -/
theorem C3_event_sequence (oc : Phase → Except String JsonV) (m : Memo)
    (h : ∀ k, ∃ v, oc k = .ok v ∧ v ≠ .null) :
    (runClaudeWorkflow oc m).events.map (fun ev => (ev.agent, ev.status))
      = [(Agent.DataCollector, EvStatus.active), (Agent.DataCollector, EvStatus.completed),
         (Agent.FinancialModeler, EvStatus.active), (Agent.FinancialModeler, EvStatus.completed),
         (Agent.RiskAnalyst, EvStatus.active), (Agent.RiskAnalyst, EvStatus.completed),
         (Agent.StructuringExpert, EvStatus.active), (Agent.StructuringExpert, EvStatus.completed),
         (Agent.CovenantDesigner, EvStatus.active), (Agent.CovenantDesigner, EvStatus.completed),
         (Agent.Writer, EvStatus.active), (Agent.Writer, EvStatus.completed)]
    ∧ (runGeminiWorkflow oc m).events.map (fun ev => (ev.agent, ev.status))
      = [(Agent.DataCollector, EvStatus.active), (Agent.DataCollector, EvStatus.completed),
         (Agent.FinancialModeler, EvStatus.active), (Agent.FinancialModeler, EvStatus.completed),
         (Agent.RiskAnalyst, EvStatus.active), (Agent.RiskAnalyst, EvStatus.completed),
         (Agent.StructuringExpert, EvStatus.active), (Agent.StructuringExpert, EvStatus.completed),
         (Agent.CovenantDesigner, EvStatus.active), (Agent.CovenantDesigner, EvStatus.completed),
         (Agent.Writer, EvStatus.active), (Agent.Writer, EvStatus.completed)] := by
  constructor
  · unfold runClaudeWorkflow
    rw [runPhases_success _ _ _ oc phaseList m (fun k _ => h k)]
    rfl
  · unfold runGeminiWorkflow
    rw [runPhases_success _ _ _ oc phaseList m (fun k _ => h k)]
    rfl

/-- C3 witness: a concrete all-success run of both orchestrators. -/
theorem C3_witness :
    (runClaudeWorkflow ocAllOk initialMemo).events.map (fun ev => (ev.agent, ev.status))
      = [(Agent.DataCollector, EvStatus.active), (Agent.DataCollector, EvStatus.completed),
         (Agent.FinancialModeler, EvStatus.active), (Agent.FinancialModeler, EvStatus.completed),
         (Agent.RiskAnalyst, EvStatus.active), (Agent.RiskAnalyst, EvStatus.completed),
         (Agent.StructuringExpert, EvStatus.active), (Agent.StructuringExpert, EvStatus.completed),
         (Agent.CovenantDesigner, EvStatus.active), (Agent.CovenantDesigner, EvStatus.completed),
         (Agent.Writer, EvStatus.active), (Agent.Writer, EvStatus.completed)]
    ∧ (runGeminiWorkflow ocAllOk initialMemo).events.map (fun ev => (ev.agent, ev.status))
      = [(Agent.DataCollector, EvStatus.active), (Agent.DataCollector, EvStatus.completed),
         (Agent.FinancialModeler, EvStatus.active), (Agent.FinancialModeler, EvStatus.completed),
         (Agent.RiskAnalyst, EvStatus.active), (Agent.RiskAnalyst, EvStatus.completed),
         (Agent.StructuringExpert, EvStatus.active), (Agent.StructuringExpert, EvStatus.completed),
         (Agent.CovenantDesigner, EvStatus.active), (Agent.CovenantDesigner, EvStatus.completed),
         (Agent.Writer, EvStatus.active), (Agent.Writer, EvStatus.completed)] :=
  C3_event_sequence ocAllOk initialMemo
    (fun _ => ⟨.obj [], rfl, fun hc => JsonV.noConfusion hc⟩)

/-- C10: on every successful run of either orchestrator the final document's
status is `"Draft"` — the Writing phase sets it unconditionally, whatever the
patch and whatever the input document's status was. -/
theorem C10_status_draft (oc : Phase → Except String JsonV) (m : Memo)
    (h : ∀ k, ∃ v, oc k = .ok v ∧ v ≠ .null) :
    (runClaudeWorkflow oc m).memo.status = .str "Draft"
    ∧ (runGeminiWorkflow oc m).memo.status = .str "Draft"
    ∧ (∀ m' p, (mergePhase6 m' p).status = .str "Draft") := by
  refine ⟨?_, ?_, fun m' p => rfl⟩
  · unfold runClaudeWorkflow
    rw [runPhases_success _ _ _ oc phaseList m (fun k _ => h k)]
    rfl
  · unfold runGeminiWorkflow
    rw [runPhases_success _ _ _ oc phaseList m (fun k _ => h k)]
    rfl

/-- C10 witness: a run started on a document in `Review` status still ends
in `Draft`. -/
theorem C10_witness :
    reviewMemo.status = .str "Review"
    ∧ (runClaudeWorkflow ocAllOk reviewMemo).memo.status = .str "Draft"
    ∧ (runGeminiWorkflow ocAllOk reviewMemo).memo.status = .str "Draft" :=
  ⟨rfl,
   (C10_status_draft ocAllOk reviewMemo
      (fun _ => ⟨.obj [], rfl, fun hc => JsonV.noConfusion hc⟩)).1,
   (C10_status_draft ocAllOk reviewMemo
      (fun _ => ⟨.obj [], rfl, fun hc => JsonV.noConfusion hc⟩)).2.1⟩

/-- C2 counterexample: when the Gemini orchestrator's phase-1 call raises
with message `boom`, the single `failed` event carries the fixed message
`Workflow interrupted due to error.`, which does not contain the error's
message — the claim's "message carries the error message" fails for this
orchestrator. -/
theorem C2_counterexample :
    (runGeminiWorkflow ocErrP1 initialMemo).events
      = [⟨.DataCollector, .active, "Searching for filings (10-K/Q) and market data..."⟩,
         ⟨.Orchestrator, .failed, "Workflow interrupted due to error."⟩]
    ∧ strContains "Workflow interrupted due to error." "boom" = false :=
  ⟨rfl, rfl⟩

/-- C2 amended: when some phase `k`'s backend call or parse raises after the
earlier phases succeeded, both orchestrators stop — the emitted events are
the success pairs of the earlier phases, then phase `k`'s `active` event,
then exactly one `failed` event tagged `Orchestrator`; the run's document is
the merge through phase `k−1` only and the error is re-raised. The `failed`
message carries the error's message in the Claude orchestrator
(`Workflow interrupted: <message>`), while the Gemini orchestrator emits a
fixed generic message that does not mention the error. -/
theorem C2_amended (oc : Phase → Except String JsonV) (m : Memo) (k : Phase) (e : String)
    (h : ∀ j ∈ phasesBefore k, ∃ v, oc j = .ok v ∧ v ≠ .null)
    (he : oc k = .error e) :
    runClaudeWorkflow oc m
      = ⟨(phasesBefore k).flatMap (phasePairEvents claudeActiveMsg claudeCompletedMsg)
          ++ [⟨phaseAgent k, .active, claudeActiveMsg k⟩,
              ⟨.Orchestrator, .failed, "Workflow interrupted: " ++ e⟩],
         mergedAlong oc (phasesBefore k) m, some e⟩
    ∧ runGeminiWorkflow oc m
      = ⟨(phasesBefore k).flatMap (phasePairEvents geminiActiveMsg geminiCompletedMsg)
          ++ [⟨phaseAgent k, .active, geminiActiveMsg k⟩,
              ⟨.Orchestrator, .failed, "Workflow interrupted due to error."⟩],
         mergedAlong oc (phasesBefore k) m, some e⟩
    ∧ ((runClaudeWorkflow oc m).events.filter
        (fun ev => ev.status == EvStatus.failed)).length = 1
    ∧ ((runGeminiWorkflow oc m).events.filter
        (fun ev => ev.status == EvStatus.failed)).length = 1
    ∧ strContains ("Workflow interrupted: " ++ e) e = true := by
  obtain ⟨l₂, hd⟩ := phaseList_decomp k
  have hc : runClaudeWorkflow oc m
      = ⟨(phasesBefore k).flatMap (phasePairEvents claudeActiveMsg claudeCompletedMsg)
          ++ [⟨phaseAgent k, .active, claudeActiveMsg k⟩,
              ⟨.Orchestrator, .failed, "Workflow interrupted: " ++ e⟩],
         mergedAlong oc (phasesBefore k) m, some e⟩ := by
    unfold runClaudeWorkflow
    rw [hd]
    exact runPhases_error _ _ _ _ _ _ _ _ _ h he
  have hg : runGeminiWorkflow oc m
      = ⟨(phasesBefore k).flatMap (phasePairEvents geminiActiveMsg geminiCompletedMsg)
          ++ [⟨phaseAgent k, .active, geminiActiveMsg k⟩,
              ⟨.Orchestrator, .failed, "Workflow interrupted due to error."⟩],
         mergedAlong oc (phasesBefore k) m, some e⟩ := by
    unfold runGeminiWorkflow
    rw [hd]
    exact runPhases_error _ _ _ _ _ _ _ _ _ h he
  refine ⟨hc, hg, ?_, ?_, strContains_append "Workflow interrupted: " e⟩
  · rw [hc]
    show (((phasesBefore k).flatMap (phasePairEvents claudeActiveMsg claudeCompletedMsg)
        ++ ([⟨phaseAgent k, EvStatus.active, claudeActiveMsg k⟩,
             ⟨Agent.Orchestrator, EvStatus.failed, "Workflow interrupted: " ++ e⟩] : List Event)).filter
      (fun ev => ev.status == EvStatus.failed)).length = 1
    rw [List.filter_append, flatMap_pairs_no_failed]
    rfl
  · rw [hg]
    show (((phasesBefore k).flatMap (phasePairEvents geminiActiveMsg geminiCompletedMsg)
        ++ ([⟨phaseAgent k, EvStatus.active, geminiActiveMsg k⟩,
             ⟨Agent.Orchestrator, EvStatus.failed, "Workflow interrupted due to error."⟩] : List Event)).filter
      (fun ev => ev.status == EvStatus.failed)).length = 1
    rw [List.filter_append, flatMap_pairs_no_failed]
    rfl

/-- C2 witness: a run failing at phase 3 with message `boom` after two
successful phases. -/
theorem C2_witness :
    runClaudeWorkflow ocErrP3 initialMemo
      = ⟨(phasesBefore .p3).flatMap (phasePairEvents claudeActiveMsg claudeCompletedMsg)
          ++ [⟨phaseAgent .p3, .active, claudeActiveMsg .p3⟩,
              ⟨.Orchestrator, .failed, "Workflow interrupted: " ++ "boom"⟩],
         mergedAlong ocErrP3 (phasesBefore .p3) initialMemo, some "boom"⟩
    ∧ runGeminiWorkflow ocErrP3 initialMemo
      = ⟨(phasesBefore .p3).flatMap (phasePairEvents geminiActiveMsg geminiCompletedMsg)
          ++ [⟨phaseAgent .p3, .active, geminiActiveMsg .p3⟩,
              ⟨.Orchestrator, .failed, "Workflow interrupted due to error."⟩],
         mergedAlong ocErrP3 (phasesBefore .p3) initialMemo, some "boom"⟩
    ∧ ((runClaudeWorkflow ocErrP3 initialMemo).events.filter
        (fun ev => ev.status == EvStatus.failed)).length = 1
    ∧ ((runGeminiWorkflow ocErrP3 initialMemo).events.filter
        (fun ev => ev.status == EvStatus.failed)).length = 1
    ∧ strContains ("Workflow interrupted: " ++ "boom") "boom" = true :=
  C2_amended ocErrP3 initialMemo .p3 "boom"
    (by
      intro j hj
      fin_cases hj <;> exact ⟨.obj [], rfl, fun hc => JsonV.noConfusion hc⟩)
    rfl

/-- C1 counterexample: a phase-2 patch whose `scenarios` key is present but
an empty list does not leave the document's scenarios unchanged — JavaScript
arrays are truthy, so the empty list replaces the previous non-empty value. -/
theorem C1_counterexample :
    getField emptyListPatch "scenarios" = .arr []
    ∧ (mergePhase2 scenarioMemo emptyListPatch).scenarios = .arr []
    ∧ scenarioMemo.scenarios ≠ .arr [] := by
  refine ⟨rfl, rfl, ?_⟩
  intro hc
  have h2 : JsonV.arr [JsonV.obj [("caseName", JsonV.str "Base Case"), ("irr", JsonV.num 18)]]
      = JsonV.arr [] := hc
  injection h2 with h3
  exact List.noConfusion h3

/-- C1 amended: per phase and per fallback-merged field, the post-merge value
is the patch's value exactly when it is present and truthy in the JavaScript
sense (non-empty string, non-zero number, `true`, or any array or object —
the empty list and a whitespace-only string do replace), and the pre-merge
value otherwise; fields outside a phase's footprint are never changed. The
term-sheet sub-record is instead merged key-wise in phases 4 and 6 (a
present patch key wins whatever its value), phase 5 overrides exactly the
three covenant keys by the truthy-fallback rule leaving all other keys
intact, and the Writing phase falls back for `title` to the fabricated
string naming the borrower — not to the previous title — and
unconditionally sets `status` to `Draft`. -/
theorem C1_amended (k : Phase) (m : Memo) (p : JsonV) :
    (∀ fk ∈ phaseFallbackFields k,
      proj fk.1 (phaseMerge k m p) = specFallback (getField p fk.2) (proj fk.1 m))
    ∧ (∀ f, f ∉ phaseWritten k → proj f (phaseMerge k m p) = proj f m)
    ∧ (∀ key, lookupKey (asObj (mergePhase4 m p).termSheet) key
        = specKeyMerge (lookupKey (asObj (getField p "termSheet")) key)
            (lookupKey (asObj m.termSheet) key))
    ∧ (∀ key ∈ covenantKeys, lookupKey (asObj (mergePhase5 m p).termSheet) key
        = some (specFallback (getField (getField p "termSheet") key) (getField m.termSheet key)))
    ∧ (∀ key, key ∉ covenantKeys → lookupKey (asObj (mergePhase5 m p).termSheet) key
        = lookupKey (asObj m.termSheet) key)
    ∧ (∀ key, lookupKey (asObj (mergePhase6 m p).termSheet) key
        = specKeyMerge (lookupKey (asObj (getField p "termSheet")) key)
            (lookupKey (asObj m.termSheet) key))
    ∧ (mergePhase6 m p).title
        = specFallback (getField p "title")
            (.str ("Investment Memo: " ++ jsToString (getField m.termSheet "borrower")))
    ∧ (mergePhase6 m p).status = .str "Draft" := by
  refine ⟨?_, ?_, ?_, ?_, ?_, ?_, jsOr_eq_specFallback _ _, rfl⟩
  · intro fk hfk
    cases k <;> fin_cases hfk <;> exact jsOr_eq_specFallback _ _
  · intro f hf
    exact proj_phaseMerge_unchanged k f hf m p
  · intro key
    exact lookupKey_spreadObj _ _ _
  · intro key hkey
    fin_cases hkey
    · exact (lookupKey_covChain_K1 (asObj m.termSheet) _ _ _).trans
        (congrArg some (jsOr_eq_specFallback _ _))
    · exact (lookupKey_covChain_K2 (asObj m.termSheet) _ _ _).trans
        (congrArg some (jsOr_eq_specFallback _ _))
    · exact (lookupKey_covChain_K3 (asObj m.termSheet) _ _ _).trans
        (congrArg some (jsOr_eq_specFallback _ _))
  · intro key hk
    have h1 : key ≠ "maintenanceCovenants" := by
      intro he
      exact hk (by rw [he]; decide)
    have h2 : key ≠ "negativeCovenants" := by
      intro he
      exact hk (by rw [he]; decide)
    have h3 : key ≠ "conditionsPrecedent" := by
      intro he
      exact hk (by rw [he]; decide)
    exact lookupKey_covChain_other (asObj m.termSheet) _ _ _ key h1 h2 h3
  · intro key
    exact lookupKey_spreadObj _ _ _

/-- C1 amended witness: at phase 2 on a concrete document and the
empty-list-scenarios patch, the fallback rule and the untouched-field rule
evaluate as the amended claim states. -/
theorem C1_amended_witness :
    proj Field.scenarios (phaseMerge .p2 scenarioMemo emptyListPatch)
      = specFallback (getField emptyListPatch "scenarios") (proj Field.scenarios scenarioMemo)
    ∧ proj Field.title (phaseMerge .p2 scenarioMemo emptyListPatch)
      = proj Field.title scenarioMemo :=
  ⟨(C1_amended .p2 scenarioMemo emptyListPatch).1 (Field.scenarios, "scenarios") (by decide),
   (C1_amended .p2 scenarioMemo emptyListPatch).2.1 Field.title (by decide)⟩

/-- C5 counterexample: the Writing phase's merge is neither an empty-patch
identity nor idempotent — an empty patch still rewrites the title to the
fabricated default (and forces status), and a second application with a
patch that updates the borrower but carries no title changes the title
again. -/
theorem C5_counterexample :
    mergePhase6 initialMemo (.obj []) ≠ initialMemo
    ∧ mergePhase6 (mergePhase6 initialMemo borrowerPatch) borrowerPatch
        ≠ mergePhase6 initialMemo borrowerPatch := by
  constructor
  · intro hc
    have ht : JsonV.str "Investment Memo: Target Company" = JsonV.str "New Investment Memo" :=
      congrArg Memo.title hc
    injection ht with hst
    exact absurd hst (by decide)
  · intro hc
    have ht : JsonV.str "Investment Memo: Acme Corp" = JsonV.str "Investment Memo: Target Company" :=
      congrArg Memo.title hc
    injection ht with hst
    exact absurd hst (by decide)

/-- C5 amended: the merges of phases 1 through 5 are pure and, on the
documents and patches JavaScript can actually produce (term sheets are
objects without duplicate keys, the document's term sheet carries the three
covenant collections), idempotent and neutral on the empty patch; the
Writing phase's merge satisfies neither law. -/
theorem C5_amended (k : Phase) (hk : k ≠ .p6) (m : Memo) (p : JsonV) :
    (patchTsNodup p = true → phaseMerge k (phaseMerge k m p) p = phaseMerge k m p)
    ∧ (memoTsWF m = true → phaseMerge k m (.obj []) = m) := by
  cases k
  · exact ⟨fun _ => mergePhase1_idem m p, fun _ => mergePhase1_identity m⟩
  · exact ⟨fun _ => mergePhase2_idem m p, fun _ => mergePhase2_identity m⟩
  · exact ⟨fun _ => mergePhase3_idem m p, fun _ => mergePhase3_identity m⟩
  · exact ⟨fun hp => mergePhase4_idem m p hp, fun hm => mergePhase4_identity m hm⟩
  · exact ⟨fun _ => mergePhase5_idem m p, fun hm => mergePhase5_identity m hm⟩
  · exact absurd rfl hk

/-- C5 amended witness: phase 4 at a concrete document and patch. -/
theorem C5_amended_witness :
    phaseMerge .p4 (phaseMerge .p4 initialMemo borrowerPatch) borrowerPatch
      = phaseMerge .p4 initialMemo borrowerPatch
    ∧ phaseMerge .p4 initialMemo (.obj []) = initialMemo :=
  ⟨(C5_amended .p4 (by decide) initialMemo borrowerPatch).1 (by decide),
   (C5_amended .p4 (by decide) initialMemo borrowerPatch).2 (by decide)⟩

/-- C6 counterexample: `capitalStructure` is written by both the
Financial-Modeling phase and the Deal-Structuring phase — two distinct
non-Writer phases sharing a top-level field other than the term sheet, which
the claimed sole exception does not cover. -/
theorem C6_counterexample :
    writes .p2 .capitalStructure ∧ writes .p4 .capitalStructure
    ∧ Phase.p2 ≠ Phase.p4 ∧ Field.capitalStructure ≠ Field.termSheet
    ∧ phaseAgent .p2 ≠ .Writer ∧ phaseAgent .p4 ≠ .Writer :=
  ⟨writes_p2_cap, writes_p4_cap, by decide, by decide, by decide, by decide⟩

/-- C6 amended: two distinct phases can write the same top-level field only
when the field is `capitalStructure` (shared by the Financial-Modeling and
Deal-Structuring phases) or `termSheet` (shared among the Deal-Structuring,
Covenant-Design and Writing phases); every other field is owned by a single
phase. -/
theorem C6_amended (f : Field) (i j : Phase) (hne : i ≠ j)
    (hi : writes i f) (hj : writes j f) :
    (f = .capitalStructure ∧ ((i = .p2 ∧ j = .p4) ∨ (i = .p4 ∧ j = .p2)))
    ∨ (f = .termSheet ∧ i ∈ [Phase.p4, Phase.p5, Phase.p6]
        ∧ j ∈ [Phase.p4, Phase.p5, Phase.p6]) := by
  have hi' := writes_subset i f hi
  have hj' := writes_subset j f hj
  clear hi hj
  revert hne hi' hj'
  revert f i j
  decide

/-- C6 amended witness: the capital-structure overlap instantiates the
amended ownership statement. -/
theorem C6_amended_witness :
    (Field.capitalStructure = Field.capitalStructure
        ∧ ((Phase.p2 = Phase.p2 ∧ Phase.p4 = Phase.p4)
            ∨ (Phase.p2 = Phase.p4 ∧ Phase.p4 = Phase.p2)))
    ∨ (Field.capitalStructure = Field.termSheet
        ∧ Phase.p2 ∈ [Phase.p4, Phase.p5, Phase.p6]
        ∧ Phase.p4 ∈ [Phase.p4, Phase.p5, Phase.p6]) :=
  C6_amended .capitalStructure .p2 .p4 (by decide) writes_p2_cap writes_p4_cap

/-- C9: after a run in which all six phases completed (the run raised
nothing), the caller's document is exactly the run's final document whatever
the confirmation call does — its output is never merged; a raising
confirmation call is swallowed into a generic message (the same catch-all
the caller uses for everything) rather than failing the run, and an empty
confirmation response degrades to the fixed fallback message. -/
theorem C9_confirmation (provider : String) (run : RunResult) (conf : Except String String)
    (h : run.err = none) :
    (handleSendMessage provider run conf).1 = run.memo
    ∧ (∀ e, conf = .error e →
        handleSendMessage provider run conf = (run.memo, criticalErrorMsg provider))
    ∧ (conf = .ok "" → (handleSendMessage provider run conf).2 = analysisCompleteMsg) := by
  unfold handleSendMessage
  rw [h]
  refine ⟨?_, ?_, ?_⟩
  · cases conf with
    | error e => rfl
    | ok t => by_cases ht : t = "" <;> simp [ht]
  · intro e hce
    rw [hce]
  · intro hco
    rw [hco]
    rfl

/-- C9 witness: a full successful Claude run followed by a failing
confirmation call — the document survives untouched and only the generic
message is surfaced. -/
theorem C9_witness :
    (handleSendMessage "claude" (runClaudeWorkflow ocAllOk initialMemo) (.error "rate limit")).1
      = (runClaudeWorkflow ocAllOk initialMemo).memo
    ∧ handleSendMessage "claude" (runClaudeWorkflow ocAllOk initialMemo) (.error "rate limit")
      = ((runClaudeWorkflow ocAllOk initialMemo).memo, criticalErrorMsg "claude") :=
  ⟨(C9_confirmation "claude" (runClaudeWorkflow ocAllOk initialMemo) (.error "rate limit")
      (by rfl)).1,
   (C9_confirmation "claude" (runClaudeWorkflow ocAllOk initialMemo) (.error "rate limit")
      (by rfl)).2.1 "rate limit" rfl⟩

end Copilot
